import Mathlib

/-!
Shallow embedding of the Obsidian "Files Dividers" plugin (src/main.ts).

The embedding covers the divider registry (settings with its list of
divider records), the item matcher (exact folder matching, the four-way
extension-insensitive file matching built on the regex `\.[^/.]+$`),
the CSS rule generator of `applyDividers`, the DOM tagging performed by
`addDividerClasses`, the retraction performed by `removeDividers`, and
the store mutations `addDividerToItem`, `removeDividerFromItem`,
`clearAllDividers` and `toggleDividers` together with the
`saveSettings` persist-then-render side effect and the `Notice`
messages they emit.
-/

namespace FilesDividers

/-- Field itemType: `'file' | 'folder'` in `FilesDividersSettings.dividers`. -/
inductive ItemType where
  | file
  | folder
deriving DecidableEq, Repr

/-- Field position: `'above' | 'below'`. -/
inductive Position where
  | above
  | below
deriving DecidableEq, Repr

/-- Field style: `'line' | 'space' | 'gradient'`. -/
inductive DividerStyle where
  | line
  | space
  | gradient
deriving DecidableEq, Repr

/-- One entry of the `dividers` array in `FilesDividersSettings`. -/
structure DividerRecord where
  itemName : String
  itemType : ItemType
  position : Position
  style : DividerStyle
deriving DecidableEq, Repr

/-- The `FilesDividersSettings` interface of src/main.ts. -/
structure FilesDividersSettings where
  dividers : List DividerRecord
  dividerColor : String
  dividerThickness : Nat
  enabled : Bool
deriving DecidableEq, Repr

/-- Constant DEFAULT_SETTINGS of src/main.ts. -/
def DEFAULT_SETTINGS : FilesDividersSettings :=
  { dividers := []
    dividerColor := "#484848"
    dividerThickness := 1
    enabled := true }

/-! ### Extension stripping: `name.replace(/\.[^/.]+$/, "")` -/

/-- Scanning the reversed character list of a name: skip characters that are
neither `'.'` nor `'/'`; on the first `'.'` return the rest (the characters
before the dot, reversed); on a `'/'` (or the end) fail.  This locates a
final `\.[^/.]+` group whose bracket part is the already-skipped prefix. -/
def findDotRev : List Char → Option (List Char)
  | [] => none
  | c :: rest =>
    if c = '.' then some rest
    else if c = '/' then none
    else findDotRev rest

/-- Semantics of `l.replace(/\.[^/.]+$/, "")` on a character list: the regex matches a
final `'.'` followed by one or more characters none of which is `'/'` or
`'.'`; the match, if any, is deleted.  The `+` forces at least one
extension character, so the reversed list must start with a non-dot,
non-slash character for a match to exist. -/
def stripExtList (l : List Char) : List Char :=
  match l.reverse with
  | [] => l
  | c :: rest =>
    if c = '.' ∨ c = '/' then l
    else
      match findDotRev rest with
      | some before => before.reverse
      | none => l

/-- Semantics of `s.replace(/\.[^/.]+$/, "")`: strip the last `.`-delimited extension,
single pass. -/
def stripExt (s : String) : String :=
  ⟨stripExtList s.data⟩

/-! ### Item matcher (`addDividerClasses`, lines 308–344) -/

/-- The four-branch file-name comparison of `addDividerClasses`
(src/main.ts lines 333–336), with `recordName = divider.itemName` and
`liveName = fileName` (the live file's displayed, trimmed title). -/
def fileMatches (recordName liveName : String) : Bool :=
  liveName == recordName ||
  stripExt liveName == stripExt recordName ||
  liveName == stripExt recordName ||
  stripExt liveName == recordName

/-- The folder-name comparison of `addDividerClasses`
(src/main.ts line 314): `folderName === divider.itemName`. -/
def folderMatches (recordName liveName : String) : Bool :=
  liveName == recordName

/-! ### CSS rule generation (`applyDividers`, lines 250–278) -/

/-- String form of an item type, as interpolated into notices and
`data-type` attributes. -/
def typeStr : ItemType → String
  | .file => "file"
  | .folder => "folder"

/-- String form of a position, as interpolated into notices and class
names. -/
def posStr : Position → String
  | .above => "above"
  | .below => "below"

/-- Variable itemClass: `'nav-folder'` for folders, `'nav-file'` for files. -/
def itemClassOf : ItemType → String
  | .folder => "nav-folder"
  | .file => "nav-file"

/-- The divider CSS class `nav-{folder|file}-divider-{above|below}`. -/
def dividerClass (t : ItemType) (p : Position) : String :=
  itemClassOf t ++ "-divider-" ++ posStr p

/-- The four divider classes removed during cleanup (lines 300–303 and
358–361). -/
def dividerClassNames : List String :=
  [dividerClass .folder .above, dividerClass .folder .below,
   dividerClass .file .above, dividerClass .file .below]

/-- The presentation rule `applyDividers` emits for one divider record:
both CSS blocks of the template (the `::before`/`::after` decorative
segment and the margin block on the element itself), with every varying
quantity captured. -/
structure CssRule where
  itemClass : String
  itemName : String
  itemType : ItemType
  position : Position
  pseudoElement : String
  height : Nat
  backgroundColor : String
  borderRadius : ℚ
  opacity : ℚ
  offsetEdge : Position
  offsetValue : Int
  marginEdge : Position
  marginValue : Nat
deriving DecidableEq, Repr

/-- The rule generated for one record (src/main.ts lines 250–277):
height and color from the settings, `border-radius: thickness/2`,
`top`/`bottom: -(8+thickness)`, `opacity: 0.6`, and `margin-top`/
`margin-bottom: 16px` on the matched element's own side. -/
def cssRuleFor (st : FilesDividersSettings) (d : DividerRecord) : CssRule :=
  { itemClass := itemClassOf d.itemType
    itemName := d.itemName
    itemType := d.itemType
    position := d.position
    pseudoElement := match d.position with | .above => "before" | .below => "after"
    height := st.dividerThickness
    backgroundColor := st.dividerColor
    borderRadius := (st.dividerThickness : ℚ) / 2
    opacity := 3 / 5
    offsetEdge := d.position
    offsetValue := -(8 + (st.dividerThickness : Int))
    marginEdge := d.position
    marginValue := 16 }

/-- Expression `this.settings.dividers.map(divider => ...)`: one rule per
stored record. -/
def cssRules (st : FilesDividersSettings) : List CssRule :=
  st.dividers.map (cssRuleFor st)

/-! ### DOM model -/

/-- A live item of the file explorer: its displayed (trimmed) title, its
kind (`.nav-folder` vs `.nav-file`), its class list and the two `data-`
attributes the plugin manipulates. -/
structure DomItem where
  name : String
  kind : ItemType
  classes : List String
  dataItem : Option String
  dataType : Option ItemType
deriving DecidableEq, Repr

/-- The presentation state the plugin touches: the optional
`files-dividers-styles` style element and the explorer's items. -/
structure DomState where
  styleEl : Option (List CssRule)
  items : List DomItem
deriving DecidableEq, Repr

/-- A DOM with an empty explorer and no injected style. -/
def emptyDom : DomState := { styleEl := none, items := [] }

/-- Remove the two `data-` attributes and the four divider classes from
an element (the body of both cleanup loops, lines 297–304 and 355–362). -/
def stripItem (it : DomItem) : DomItem :=
  { it with
    classes := it.classes.filter (fun c => !dividerClassNames.contains c)
    dataItem := none
    dataType := none }

/-- The cleanup loops select `[data-item]` elements only: an element is
stripped exactly when its `data-item` attribute is present. -/
def stripIfTagged (it : DomItem) : DomItem :=
  if it.dataItem.isSome then stripItem it else it

/-- Loop `document.querySelectorAll(...).forEach(el => ...)` over the tagged elements. -/
def clearTagged (items : List DomItem) : List DomItem :=
  items.map stripIfTagged

/-- Method removeDividers (src/main.ts lines 348–363): delete the style
element if present and strip every `[data-item]` element. -/
def removeDividers (s : DomState) : DomState :=
  { styleEl := none, items := clearTagged s.items }

/-- Whether a record applies to a live item (`addDividerClasses`):
folder records are compared against `.nav-folder` titles by exact
equality, file records against `.nav-file` titles by the four-branch
comparison; kinds must agree. -/
def matchesItem (d : DividerRecord) (it : DomItem) : Bool :=
  match d.itemType, it.kind with
  | .folder, .folder => folderMatches d.itemName it.name
  | .file, .file => fileMatches d.itemName it.name
  | _, _ => false

/-- Semantics of classList.add: append the class unless already present. -/
def addClassIfAbsent (c : String) (cs : List String) : List String :=
  if cs.contains c then cs else cs ++ [c]

/-- The tagging step for one divider record on one element (lines
314–319 and 333–341): on a match, add the divider class and set
`data-item` and `data-type`. -/
def tagItem (d : DividerRecord) (it : DomItem) : DomItem :=
  if matchesItem d it then
    { it with
      classes := addClassIfAbsent (dividerClass d.itemType d.position) it.classes
      dataItem := some d.itemName
      dataType := some d.itemType }
  else it

/-- Loop `this.settings.dividers.forEach(divider => ...)` over all live
elements. -/
def tagAll (dividers : List DividerRecord) (items : List DomItem) : List DomItem :=
  dividers.foldl (fun its d => its.map (tagItem d)) items

/-- Method addDividerClasses (src/main.ts lines 292–346): first strip every
`[data-item]` element, then tag matching elements for each record. -/
def addDividerClasses (dividers : List DividerRecord) (s : DomState) : DomState :=
  { s with items := tagAll dividers (clearTagged s.items) }

/-- Method applyDividers (src/main.ts lines 242–290): retract everything,
stop if the collection is empty, otherwise inject the generated style
element and tag the live items. -/
def applyDividers (st : FilesDividersSettings) (s : DomState) : DomState :=
  let s1 := removeDividers s
  if st.dividers.isEmpty then s1
  else addDividerClasses st.dividers { s1 with styleEl := some (cssRules st) }

/-- The rendering side of `saveSettings` (src/main.ts lines 175–182):
apply when enabled, retract when disabled.  (The `saveData` persistence
call is recorded separately by the `saved` flag of `OpResult`.) -/
def saveSettingsDom (st : FilesDividersSettings) (s : DomState) : DomState :=
  if st.enabled then applyDividers st s else removeDividers s

/-! ### Store mutations -/

/-- The triple comparison used by `addDividerToItem` and
`removeDividerFromItem`. -/
def sameTriple (d : DividerRecord) (itemName : String) (itemType : ItemType)
    (position : Position) : Bool :=
  d.itemName == itemName && d.itemType == itemType && d.position == position

/-- Result of one store mutation: the new settings, the new DOM state,
the `Notice` messages shown, and whether `saveSettings` ran (i.e.
whether the settings were persisted and the render refreshed). -/
structure OpResult where
  settings : FilesDividersSettings
  dom : DomState
  notices : List String
  saved : Bool
deriving DecidableEq, Repr

/-- Method addDividerToItem (src/main.ts lines 184–203). -/
def addDividerToItem (st : FilesDividersSettings) (dom : DomState)
    (itemName : String) (itemType : ItemType) (position : Position) : OpResult :=
  if st.dividers.any (fun d => sameTriple d itemName itemType position) then
    { settings := st
      dom := dom
      notices := ["Divider already exists " ++ posStr position ++ " " ++
        typeStr itemType ++ " \"" ++ itemName ++ "\""]
      saved := false }
  else
    let st' := { st with dividers := st.dividers ++
      [{ itemName := itemName, itemType := itemType, position := position,
         style := .line }] }
    { settings := st'
      dom := saveSettingsDom st' dom
      notices := ["Added divider " ++ posStr position ++ " " ++
        typeStr itemType ++ " \"" ++ itemName ++ "\""]
      saved := true }

/-- Method removeDividerFromItem (src/main.ts lines 205–215): filter the
list; persist, re-render and notify only when the length shrank. -/
def removeDividerFromItem (st : FilesDividersSettings) (dom : DomState)
    (itemName : String) (itemType : ItemType) (position : Position) : OpResult :=
  let dividers' := st.dividers.filter
    (fun d => !sameTriple d itemName itemType position)
  let st' := { st with dividers := dividers' }
  if dividers'.length < st.dividers.length then
    { settings := st'
      dom := saveSettingsDom st' dom
      notices := ["Removed divider " ++ posStr position ++ " " ++
        typeStr itemType ++ " \"" ++ itemName ++ "\""]
      saved := true }
  else
    { settings := st', dom := dom, notices := [], saved := false }

/-- Method clearAllDividers (src/main.ts lines 230–240). -/
def clearAllDividers (st : FilesDividersSettings) (dom : DomState) : OpResult :=
  if st.dividers.length = 0 then
    { settings := st, dom := dom, notices := ["No dividers to clear"],
      saved := false }
  else
    let st' := { st with dividers := [] }
    { settings := st'
      dom := saveSettingsDom st' dom
      notices := ["Cleared " ++ toString st.dividers.length ++ " divider(s)"]
      saved := true }

/-- Method toggleDividers (src/main.ts lines 365–370). -/
def toggleDividers (st : FilesDividersSettings) (dom : DomState) : OpResult :=
  let st' := { st with enabled := !st.enabled }
  { settings := st'
    dom := saveSettingsDom st' dom
    notices := ["Files dividers " ++ (if st'.enabled then "enabled" else "disabled")]
    saved := true }

/-! ### Derived notions used by the claims -/

/-- No two records of a list share an `(itemName, itemType, position)`
triple. -/
def nodupTriples (l : List DividerRecord) : Prop :=
  l.Pairwise (fun a b =>
    ¬(a.itemName = b.itemName ∧ a.itemType = b.itemType ∧ a.position = b.position))

/-- Run a sequence of `addDividerToItem` calls, threading settings and
DOM. -/
def runAdds (ops : List (String × ItemType × Position)) :
    FilesDividersSettings × DomState :=
  ops.foldl
    (fun sd op =>
      let r := addDividerToItem sd.1 sd.2 op.1 op.2.1 op.2.2
      (r.settings, r.dom))
    (DEFAULT_SETTINGS, emptyDom)

/-- A DOM state is cleanly tagged when every element carrying no
`data-item` attribute also carries no `data-type` attribute and no
divider class.  Every state the plugin itself produces is of this form,
since tagging always sets `data-item` together with the class and the
cleanup loops select on `[data-item]`. -/
def cleanTagged (s : DomState) : Prop :=
  ∀ it ∈ s.items, it.dataItem = none →
    it.dataType = none ∧ it.classes.all (fun c => !dividerClassNames.contains c)

instance : DecidablePred cleanTagged := fun s => by
  unfold cleanTagged; infer_instance

/-- Pointwise form of the tagging loop: one element as transformed by
the whole sequence of divider records in order. -/
def tagSeq (dividers : List DividerRecord) (it : DomItem) : DomItem :=
  dividers.foldl (fun it d => tagItem d it) it

/-- An element carrying no tag, no data-type remnant and no divider
class: the form every element takes after retraction of a cleanly
tagged DOM. -/
def untaggedClean (it : DomItem) : Prop :=
  it.dataItem = none ∧ it.dataType = none ∧
    ∀ c ∈ it.classes, dividerClassNames.contains c = false

/-- Relation between an element and a tagged descendant of it: either
untouched, or tagged (data-item set) in a way stripping undoes. -/
def tagTrace (it0 it : DomItem) : Prop :=
  it = it0 ∨ (it.dataItem.isSome = true ∧ stripItem it = it0)

/-! ### Helper lemmas on extension stripping -/

theorem findDotRev_eq_none : ∀ {l : List Char}, '.' ∉ l → findDotRev l = none
  | [], _ => rfl
  | c :: rest, h => by
    have hc : ¬c = '.' := fun hc => h (hc ▸ List.mem_cons_self c rest)
    have hr : '.' ∉ rest := fun hm => h (List.mem_cons_of_mem c hm)
    unfold findDotRev
    rw [if_neg hc]
    by_cases hs : c = '/'
    · rw [if_pos hs]
    · rw [if_neg hs]
      exact findDotRev_eq_none hr

theorem stripExtList_no_dot {l : List Char} (h : '.' ∉ l) : stripExtList l = l := by
  unfold stripExtList
  split
  · rfl
  · next c rest hrev =>
    have hcl : c ∈ l := List.mem_reverse.mp (by rw [hrev]; exact List.mem_cons_self c rest)
    by_cases hs : c = '/'
    · rw [if_pos (Or.inr hs)]
    · have hc : ¬(c = '.' ∨ c = '/') := by
        rintro (h1 | h2)
        · exact h (h1 ▸ hcl)
        · exact hs h2
      rw [if_neg hc]
      have hrest : '.' ∉ rest := by
        intro hm
        exact h (List.mem_reverse.mp (by rw [hrev]; exact List.mem_cons_of_mem c hm))
      rw [findDotRev_eq_none hrest]

theorem stripExt_no_dot {s : String} (h : '.' ∉ s.data) : stripExt s = s := by
  cases s with
  | mk data => exact congrArg String.mk (stripExtList_no_dot h)

/-! ### Claim theorems: item matching -/

/-- C1: a stored file record matches a live file name exactly when one of
the four branches holds — exact equality, both names extension-stripped,
live name equal to the stripped record name, or stripped live name equal
to the record name — where stripping removes only the last dot-delimited
suffix in one pass and leaves dot-free names unchanged; in particular
"todo.md" matches "todo" and vice versa. -/
theorem claim_C1 :
    (∀ recordName liveName : String,
      fileMatches recordName liveName = true ↔
        (recordName = liveName ∨
         stripExt recordName = stripExt liveName ∨
         liveName = stripExt recordName ∨
         stripExt liveName = recordName)) ∧
    (∀ s : String, '.' ∉ s.data → stripExt s = s) ∧
    stripExt "a.b.c" = "a.b" ∧
    fileMatches "todo.md" "todo" = true ∧
    fileMatches "todo" "todo.md" = true := by
  refine ⟨?_, ?_, by decide, by decide, by decide⟩
  · intro r l
    simp only [fileMatches, Bool.or_eq_true, beq_iff_eq]
    constructor
    · rintro (((h | h) | h) | h)
      · exact Or.inl h.symm
      · exact Or.inr (Or.inl h.symm)
      · exact Or.inr (Or.inr (Or.inl h))
      · exact Or.inr (Or.inr (Or.inr h))
    · rintro (h | h | h | h)
      · exact Or.inl (Or.inl (Or.inl h.symm))
      · exact Or.inl (Or.inl (Or.inr h.symm))
      · exact Or.inl (Or.inr h)
      · exact Or.inr h
  · intro s h
    exact stripExt_no_dot h

/-- Witness for C1 at the dot-free name "todo". -/
theorem claim_C1_witness :
    ('.' ∉ "todo".data) ∧ stripExt "todo" = "todo" :=
  ⟨by decide, claim_C1.2.1 "todo" (by decide)⟩

/-- C8: a folder record matches a live folder exactly when the record
name equals the displayed folder name verbatim; no extension stripping
takes part, and folder "Animals" does not match live folder "Animals2". -/
theorem claim_C8 :
    (∀ (d : DividerRecord) (it : DomItem), d.itemType = .folder → it.kind = .folder →
      (matchesItem d it = true ↔ it.name = d.itemName)) ∧
    matchesItem
      { itemName := "Animals", itemType := .folder, position := .below, style := .line }
      { name := "Animals2", kind := .folder, classes := [], dataItem := none,
        dataType := none } = false := by
  refine ⟨?_, by decide⟩
  intro d it hd hit
  unfold matchesItem
  rw [hd, hit]
  show folderMatches d.itemName it.name = true ↔ it.name = d.itemName
  simp [folderMatches, beq_iff_eq]

/-- Witness for C8 at the record "Animals" and a live folder also named
"Animals". -/
theorem claim_C8_witness :
    matchesItem
      { itemName := "Animals", itemType := .folder, position := .below, style := .line }
      { name := "Animals", kind := .folder, classes := [], dataItem := none,
        dataType := none } = true :=
  (claim_C8.1
    { itemName := "Animals", itemType := .folder, position := .below, style := .line }
    { name := "Animals", kind := .folder, classes := [], dataItem := none,
      dataType := none } rfl rfl).mpr rfl

/-- C10: the four-branch file matching relation is symmetric in the
record name and the live name. -/
theorem claim_C10 : ∀ a b : String, fileMatches a b = fileMatches b a := by
  intro a b
  rw [Bool.eq_iff_iff]
  simp only [fileMatches, Bool.or_eq_true, beq_iff_eq]
  constructor
  · rintro (((h | h) | h) | h)
    · exact Or.inl (Or.inl (Or.inl h.symm))
    · exact Or.inl (Or.inl (Or.inr h.symm))
    · exact Or.inr h.symm
    · exact Or.inl (Or.inr h.symm)
  · rintro (((h | h) | h) | h)
    · exact Or.inl (Or.inl (Or.inl h.symm))
    · exact Or.inl (Or.inl (Or.inr h.symm))
    · exact Or.inr h.symm
    · exact Or.inl (Or.inr h.symm)

/-! ### Store lemmas -/

theorem sameTriple_iff {d : DividerRecord} {n : String} {t : ItemType} {p : Position} :
    sameTriple d n t p = true ↔ (d.itemName = n ∧ d.itemType = t ∧ d.position = p) := by
  simp [sameTriple, Bool.and_eq_true, beq_iff_eq, and_assoc]

theorem addDividerToItem_nodup (st : FilesDividersSettings) (dom : DomState)
    (n : String) (t : ItemType) (p : Position) (h : nodupTriples st.dividers) :
    nodupTriples (addDividerToItem st dom n t p).settings.dividers := by
  unfold addDividerToItem
  by_cases hex : st.dividers.any (fun d => sameTriple d n t p) = true
  · rw [if_pos hex]
    exact h
  · rw [if_neg hex]
    show nodupTriples (st.dividers ++ [_])
    rw [nodupTriples, List.pairwise_append]
    refine ⟨h, by simp, ?_⟩
    intro a ha b hb
    rw [List.mem_singleton] at hb
    subst hb
    rintro ⟨h1, h2, h3⟩
    apply hex
    rw [List.any_eq_true]
    exact ⟨a, ha, sameTriple_iff.mpr ⟨h1, h2, h3⟩⟩

theorem runAdds_foldl_nodup :
    ∀ (ops : List (String × ItemType × Position)) (sd : FilesDividersSettings × DomState),
      nodupTriples sd.1.dividers →
      nodupTriples ((ops.foldl (fun sd op =>
        let r := addDividerToItem sd.1 sd.2 op.1 op.2.1 op.2.2
        (r.settings, r.dom)) sd)).1.dividers
  | [], _, h => h
  | op :: rest, sd, h => by
    rw [List.foldl_cons]
    exact runAdds_foldl_nodup rest _
      (addDividerToItem_nodup sd.1 sd.2 op.1 op.2.1 op.2.2 h)

theorem length_filter_lt_of_mem {α : Type} {p : α → Bool} {l : List α} {x : α}
    (hx : x ∈ l) (hp : p x = false) : (l.filter p).length < l.length := by
  induction l with
  | nil => cases hx
  | cons a l ih =>
    rcases List.mem_cons.mp hx with rfl | hmem
    · have h1 : List.filter p (x :: l) = l.filter p := by
        rw [List.filter_cons, hp]
        simp
      rw [h1, List.length_cons]
      exact Nat.lt_succ_of_le (List.length_filter_le p l)
    · have h2 := ih hmem
      rw [List.filter_cons]
      by_cases hpa : p a = true
      · rw [if_pos hpa, List.length_cons, List.length_cons]
        omega
      · rw [if_neg hpa, List.length_cons]
        omega

/-! ### Claim theorems: store mutations -/

/-- C2: starting from the empty store, no sequence of Add calls ever
produces two records with the same (itemName, itemType, position)
triple, and an Add whose triple already exists reports that the divider
already exists, changes nothing, and neither persists nor re-renders. -/
theorem claim_C2 :
    (∀ ops : List (String × ItemType × Position),
      nodupTriples (runAdds ops).1.dividers) ∧
    (∀ (st : FilesDividersSettings) (dom : DomState) (n : String)
        (t : ItemType) (p : Position),
      st.dividers.any (fun d => sameTriple d n t p) = true →
        addDividerToItem st dom n t p =
          { settings := st, dom := dom
            notices := ["Divider already exists " ++ posStr p ++ " " ++
              typeStr t ++ " \"" ++ n ++ "\""]
            saved := false }) := by
  constructor
  · intro ops
    exact runAdds_foldl_nodup ops (DEFAULT_SETTINGS, emptyDom) List.Pairwise.nil
  · intro st dom n t p hex
    unfold addDividerToItem
    rw [if_pos hex]

/-- Witness for C2: a second Add of the same folder record is rejected
with a notice and leaves the one-record store untouched. -/
theorem claim_C2_witness :
    addDividerToItem
      { dividers := [{ itemName := "Animals", itemType := .folder,
                       position := .below, style := .line }]
        dividerColor := "#484848", dividerThickness := 1, enabled := true }
      emptyDom "Animals" .folder .below =
      { settings := { dividers := [{ itemName := "Animals", itemType := .folder,
                                     position := .below, style := .line }]
                      dividerColor := "#484848", dividerThickness := 1, enabled := true }
        dom := emptyDom
        notices := ["Divider already exists below folder \"Animals\""]
        saved := false } :=
  claim_C2.2 _ emptyDom "Animals" .folder .below (by decide)

/-- C4 counterexample: removing a divider that is not in the store
produces no user-visible notification at all (the notice list is
empty), contrary to the claim that a count of 0 is reported. -/
theorem claim_C4_counterexample :
    removeDividerFromItem DEFAULT_SETTINGS emptyDom "x" .file .above =
      { settings := DEFAULT_SETTINGS, dom := emptyDom, notices := [],
        saved := false } := by decide

/-- C4 (amended): when a matching record exists, RemoveOne deletes every
matching record (the store shrinks and no match remains), persists,
re-renders, and shows a removal notice; when no record matches, the
store is unchanged, nothing is persisted or re-rendered, and no
notification is shown. -/
theorem claim_C4 :
    ∀ (st : FilesDividersSettings) (dom : DomState) (n : String)
      (t : ItemType) (p : Position),
      (st.dividers.any (fun d => sameTriple d n t p) = true →
        (removeDividerFromItem st dom n t p).settings.dividers.any
          (fun d => sameTriple d n t p) = false ∧
        (removeDividerFromItem st dom n t p).settings.dividers.length <
          st.dividers.length ∧
        (removeDividerFromItem st dom n t p).saved = true ∧
        (removeDividerFromItem st dom n t p).dom =
          saveSettingsDom (removeDividerFromItem st dom n t p).settings dom ∧
        (removeDividerFromItem st dom n t p).notices =
          ["Removed divider " ++ posStr p ++ " " ++ typeStr t ++
            " \"" ++ n ++ "\""]) ∧
      (st.dividers.any (fun d => sameTriple d n t p) = false →
        removeDividerFromItem st dom n t p =
          { settings := st, dom := dom, notices := [], saved := false }) := by
  intro st dom n t p
  constructor
  · intro hex
    obtain ⟨x, hx, hqx⟩ := List.any_eq_true.mp hex
    have hlt : (st.dividers.filter
        (fun d => !sameTriple d n t p)).length < st.dividers.length :=
      length_filter_lt_of_mem hx (by rw [hqx]; rfl)
    have hnomatch : (st.dividers.filter
        (fun d => !sameTriple d n t p)).any (fun d => sameTriple d n t p) = false := by
      rw [List.any_eq_false]
      intro y hy
      have := (List.mem_filter.mp hy).2
      simp only [Bool.not_eq_true'] at this
      simp [this]
    unfold removeDividerFromItem
    rw [if_pos hlt]
    exact ⟨hnomatch, hlt, rfl, rfl, rfl⟩
  · intro hno
    have hall : ∀ d ∈ st.dividers, (fun d => !sameTriple d n t p) d = true := by
      intro d hd
      have := List.any_eq_false.mp hno d hd
      simp only [Bool.not_eq_true] at this ⊢
      simp [this]
    have hself : st.dividers.filter (fun d => !sameTriple d n t p) = st.dividers :=
      List.filter_eq_self.mpr hall
    unfold removeDividerFromItem
    rw [hself, if_neg (lt_irrefl st.dividers.length)]

/-- Witness for C4 at a one-record store (match present) and at the
empty store (no match). -/
theorem claim_C4_witness :
    (removeDividerFromItem
      { dividers := [{ itemName := "Animals", itemType := .folder,
                       position := .below, style := .line }]
        dividerColor := "#484848", dividerThickness := 1, enabled := true }
      emptyDom "Animals" .folder .below).saved = true ∧
    removeDividerFromItem DEFAULT_SETTINGS emptyDom "Animals" .folder .below =
      { settings := DEFAULT_SETTINGS, dom := emptyDom, notices := [],
        saved := false } :=
  ⟨((claim_C4 _ emptyDom "Animals" .folder .below).1 (by decide)).2.2.1,
   (claim_C4 DEFAULT_SETTINGS emptyDom "Animals" .folder .below).2 (by decide)⟩

/-- C5: ClearAll on a non-empty store empties it, reports the prior
count as "Cleared n divider(s)", persists and re-renders (the render of
an empty collection being a full retraction); on an empty store it is a
no-op that reports there is nothing to clear, with no persist and no
re-render. -/
theorem claim_C5 :
    ∀ (st : FilesDividersSettings) (dom : DomState),
      (st.dividers.length = 0 →
        clearAllDividers st dom =
          { settings := st, dom := dom, notices := ["No dividers to clear"],
            saved := false }) ∧
      (0 < st.dividers.length →
        (clearAllDividers st dom).settings.dividers = [] ∧
        (clearAllDividers st dom).saved = true ∧
        (clearAllDividers st dom).notices =
          ["Cleared " ++ toString st.dividers.length ++ " divider(s)"] ∧
        (clearAllDividers st dom).dom = removeDividers dom) := by
  intro st dom
  constructor
  · intro h0
    unfold clearAllDividers
    rw [if_pos h0]
  · intro hpos
    unfold clearAllDividers
    rw [if_neg (by omega)]
    refine ⟨rfl, rfl, rfl, ?_⟩
    show saveSettingsDom { st with dividers := [] } dom = removeDividers dom
    unfold saveSettingsDom
    by_cases hen : ({ st with dividers := [] } : FilesDividersSettings).enabled = true
    · rw [if_pos hen]
      simp [applyDividers]
    · rw [if_neg hen]

/-- Witness for C5: the empty store reports nothing to clear; a
three-record store reports that three dividers were cleared. -/
theorem claim_C5_witness :
    clearAllDividers DEFAULT_SETTINGS emptyDom =
      { settings := DEFAULT_SETTINGS, dom := emptyDom,
        notices := ["No dividers to clear"], saved := false } ∧
    (clearAllDividers
      { dividers := [{ itemName := "a", itemType := .file, position := .above, style := .line },
                     { itemName := "b", itemType := .file, position := .below, style := .line },
                     { itemName := "c", itemType := .folder, position := .above, style := .line }]
        dividerColor := "#484848", dividerThickness := 1, enabled := true }
      emptyDom).notices = ["Cleared 3 divider(s)"] :=
  ⟨(claim_C5 DEFAULT_SETTINGS emptyDom).1 rfl,
   ((claim_C5 _ emptyDom).2 (by decide)).2.2.1⟩

/-! ### Claim theorems: CSS rule generation -/

/-- C3: one presentation rule is generated per stored record, and for
every thickness and color the rule carries height equal to the
thickness, the configured background color, corner radius of half the
thickness, an offset of -(8+thickness) on the side named by the record
position, and a fixed margin of 16 on that same side; with thickness 3
and color #ff0000, an Above rule has height 3, color #ff0000, top
offset -11, and margin-top 16. -/
theorem claim_C3 :
    (∀ st : FilesDividersSettings, (cssRules st).length = st.dividers.length) ∧
    (∀ (st : FilesDividersSettings) (d : DividerRecord),
      1 ≤ st.dividerThickness → st.dividerThickness ≤ 5 →
        (cssRuleFor st d).height = st.dividerThickness ∧
        (cssRuleFor st d).backgroundColor = st.dividerColor ∧
        (cssRuleFor st d).borderRadius = (st.dividerThickness : ℚ) / 2 ∧
        (cssRuleFor st d).opacity = 3 / 5 ∧
        (cssRuleFor st d).offsetEdge = d.position ∧
        (cssRuleFor st d).offsetValue = -(8 + (st.dividerThickness : Int)) ∧
        (cssRuleFor st d).marginEdge = d.position ∧
        (cssRuleFor st d).marginValue = 16) ∧
    (cssRules
      { dividers := [{ itemName := "Science", itemType := .folder,
                       position := .above, style := .line }]
        dividerColor := "#ff0000", dividerThickness := 3, enabled := true } =
      [{ itemClass := "nav-folder", itemName := "Science", itemType := .folder,
         position := .above, pseudoElement := "before", height := 3,
         backgroundColor := "#ff0000", borderRadius := 3 / 2, opacity := 3 / 5,
         offsetEdge := .above, offsetValue := -11, marginEdge := .above,
         marginValue := 16 }]) := by
  refine ⟨fun st => by simp [cssRules],
    fun st d h1 h5 => ⟨rfl, rfl, rfl, rfl, rfl, rfl, rfl, rfl⟩, ?_⟩
  simp only [cssRules, cssRuleFor, List.map_cons, List.map_nil]
  norm_num [itemClassOf]

/-- Witness for C3 at thickness 3. -/
theorem claim_C3_witness :
    (cssRuleFor
      { dividers := [], dividerColor := "#ff0000", dividerThickness := 3,
        enabled := true }
      { itemName := "Science", itemType := .folder, position := .above,
        style := .line }).marginValue = 16 :=
  (claim_C3.2.1 _ _ (by decide) (by decide)).2.2.2.2.2.2.2

/-! ### DOM lifecycle lemmas -/

theorem stripIfTagged_idem (it : DomItem) :
    stripIfTagged (stripIfTagged it) = stripIfTagged it := by
  unfold stripIfTagged
  by_cases h : it.dataItem.isSome = true
  · rw [if_pos h]
    rw [if_neg (by simp [stripItem])]
  · rw [if_neg h, if_neg h]

theorem clearTagged_idem (l : List DomItem) :
    clearTagged (clearTagged l) = clearTagged l := by
  unfold clearTagged
  rw [List.map_map]
  have h : stripIfTagged ∘ stripIfTagged = stripIfTagged :=
    funext stripIfTagged_idem
  rw [h]

theorem removeDividers_idem (s : DomState) :
    removeDividers (removeDividers s) = removeDividers s := by
  unfold removeDividers
  rw [clearTagged_idem]

theorem applyDividers_congr {s1 s2 : DomState} (st : FilesDividersSettings)
    (h : removeDividers s1 = removeDividers s2) :
    applyDividers st s1 = applyDividers st s2 := by
  unfold applyDividers
  rw [h]

theorem applyDividers_removeDividers (st : FilesDividersSettings) (s : DomState) :
    applyDividers st (removeDividers s) = applyDividers st s :=
  applyDividers_congr st (removeDividers_idem s)

theorem dividerClass_mem (t : ItemType) (p : Position) :
    dividerClassNames.contains (dividerClass t p) = true := by
  cases t <;> cases p <;> decide

theorem untaggedClean_stripItem (it : DomItem) : untaggedClean (stripItem it) := by
  refine ⟨rfl, rfl, ?_⟩
  intro c hc
  have h := (List.mem_filter.mp hc).2
  simpa using h

theorem clearTagged_untagged {s : DomState} (h : cleanTagged s) :
    ∀ it ∈ clearTagged s.items, untaggedClean it := by
  intro it hit
  rw [clearTagged, List.mem_map] at hit
  obtain ⟨it0, hmem, rfl⟩ := hit
  unfold stripIfTagged
  by_cases hd : it0.dataItem.isSome = true
  · rw [if_pos hd]
    exact untaggedClean_stripItem it0
  · rw [if_neg hd]
    have hnone : it0.dataItem = none := by
      cases h0 : it0.dataItem
      · rfl
      · rw [h0] at hd; simp at hd
    obtain ⟨h1, h2⟩ := h it0 hmem hnone
    refine ⟨hnone, h1, ?_⟩
    intro c hc
    have := List.all_eq_true.mp h2 c hc
    simpa using this

theorem filter_addClassIfAbsent {cls : String} (cs : List String)
    (hc : dividerClassNames.contains cls = true) :
    (addClassIfAbsent cls cs).filter (fun c => !dividerClassNames.contains c) =
      cs.filter (fun c => !dividerClassNames.contains c) := by
  unfold addClassIfAbsent
  by_cases hmem : cs.contains cls = true
  · rw [if_pos hmem]
  · rw [if_neg hmem, List.filter_append]
    have hmemd : cls ∈ dividerClassNames := by simpa using hc
    simp [hmemd]

theorem tagTrace_tagItem {it0 it : DomItem} (h0 : untaggedClean it0)
    (h : tagTrace it0 it) (d : DividerRecord) : tagTrace it0 (tagItem d it) := by
  unfold tagItem
  by_cases hm : matchesItem d it = true
  · rw [if_pos hm]
    right
    refine ⟨rfl, ?_⟩
    rcases h with rfl | ⟨hs, hstrip⟩
    · obtain ⟨hdi0, hdt0, hcl0⟩ := h0
      obtain ⟨nm, kd, cls, di, dt⟩ := it
      have hdi : di = none := hdi0
      have hdt : dt = none := hdt0
      have hcl : ∀ c ∈ cls, dividerClassNames.contains c = false := hcl0
      subst hdi
      subst hdt
      have hself : cls.filter (fun c => !dividerClassNames.contains c) = cls :=
        List.filter_eq_self.mpr (fun a ha => by
          have hna : a ∉ dividerClassNames := by simpa using hcl a ha
          simp [hna])
      unfold stripItem
      dsimp only
      rw [filter_addClassIfAbsent cls (dividerClass_mem d.itemType d.position), hself]
    · rw [← hstrip]
      unfold stripItem
      dsimp only
      rw [filter_addClassIfAbsent it.classes (dividerClass_mem d.itemType d.position)]
  · rw [if_neg hm]
    exact h

theorem tagTrace_tagSeq {it0 : DomItem} (h0 : untaggedClean it0) :
    ∀ (ds : List DividerRecord) {it : DomItem}, tagTrace it0 it →
      tagTrace it0 (tagSeq ds it)
  | [], _, h => h
  | d :: ds, it, h => by
    show tagTrace it0 (tagSeq ds (tagItem d it))
    exact tagTrace_tagSeq h0 ds (tagTrace_tagItem h0 h d)

theorem stripIfTagged_tagSeq {it : DomItem} (h0 : untaggedClean it)
    (ds : List DividerRecord) : stripIfTagged (tagSeq ds it) = it := by
  rcases tagTrace_tagSeq h0 ds (Or.inl rfl) with heq | ⟨hs, hstrip⟩
  · rw [heq]
    unfold stripIfTagged
    rw [if_neg (by rw [h0.1]; simp)]
  · unfold stripIfTagged
    rw [if_pos hs]
    exact hstrip

theorem tagAll_eq_map :
    ∀ (ds : List DividerRecord) (items : List DomItem),
      tagAll ds items = items.map (tagSeq ds)
  | [], items => by
    unfold tagAll tagSeq
    rw [List.foldl_nil]
    exact (List.map_id' items).symm
  | d :: ds, items => by
    show tagAll ds (items.map (tagItem d)) = _
    rw [tagAll_eq_map ds (items.map (tagItem d)), List.map_map]
    rfl

theorem map_eq_self_of_mem {α : Type} {f : α → α} :
    ∀ {l : List α}, (∀ a ∈ l, f a = a) → l.map f = l
  | [], _ => rfl
  | a :: l, h => by
    rw [List.map_cons, h a (List.mem_cons_self a l),
      map_eq_self_of_mem (fun x hx => h x (List.mem_cons_of_mem a hx))]

theorem clearTagged_tagAll {items : List DomItem}
    (h : ∀ it ∈ items, untaggedClean it) (ds : List DividerRecord) :
    clearTagged (tagAll ds items) = items := by
  rw [tagAll_eq_map, clearTagged, List.map_map]
  exact map_eq_self_of_mem (fun it hit => stripIfTagged_tagSeq (h it hit) ds)

theorem removeDividers_applyDividers {st : FilesDividersSettings} {s : DomState}
    (h : cleanTagged s) :
    removeDividers (applyDividers st s) = removeDividers s := by
  unfold applyDividers
  by_cases hemp : st.dividers.isEmpty = true
  · rw [if_pos hemp]
    exact removeDividers_idem s
  · rw [if_neg hemp]
    unfold addDividerClasses removeDividers
    simp only
    rw [clearTagged_idem, clearTagged_tagAll (clearTagged_untagged h)]

/-! ### Claim theorems: apply/retract lifecycle -/

/-- C6: Apply begins with a full retraction (its result is unchanged if
its input is first retracted), stops after the retraction when the
divider collection is empty (emitting no rules), and is idempotent: on
a cleanly tagged DOM, applying twice with unchanged settings and tree
yields exactly the state of applying once. -/
theorem claim_C6 :
    (∀ (st : FilesDividersSettings) (s : DomState),
      applyDividers st (removeDividers s) = applyDividers st s) ∧
    (∀ (st : FilesDividersSettings) (s : DomState), st.dividers = [] →
      applyDividers st s = removeDividers s ∧
      (applyDividers st s).styleEl = none) ∧
    (∀ (st : FilesDividersSettings) (s : DomState), cleanTagged s →
      applyDividers st (applyDividers st s) = applyDividers st s) := by
  refine ⟨applyDividers_removeDividers, ?_, ?_⟩
  · intro st s hdiv
    have h : applyDividers st s = removeDividers s := by
      unfold applyDividers
      rw [if_pos (by rw [hdiv]; rfl)]
    exact ⟨h, by rw [h]; rfl⟩
  · intro st s h
    exact applyDividers_congr st (removeDividers_applyDividers h)

/-- Witness for C6: the empty collection stops after retraction, and a
one-record apply over a one-folder explorer is idempotent. -/
theorem claim_C6_witness :
    applyDividers DEFAULT_SETTINGS emptyDom = removeDividers emptyDom ∧
    applyDividers
      { dividers := [{ itemName := "Animals", itemType := .folder,
                       position := .below, style := .line }]
        dividerColor := "#484848", dividerThickness := 1, enabled := true }
      (applyDividers
        { dividers := [{ itemName := "Animals", itemType := .folder,
                         position := .below, style := .line }]
          dividerColor := "#484848", dividerThickness := 1, enabled := true }
        { styleEl := none,
          items := [{ name := "Animals", kind := .folder, classes := [],
                      dataItem := none, dataType := none }] }) =
    applyDividers
      { dividers := [{ itemName := "Animals", itemType := .folder,
                       position := .below, style := .line }]
        dividerColor := "#484848", dividerThickness := 1, enabled := true }
      { styleEl := none,
        items := [{ name := "Animals", kind := .folder, classes := [],
                    dataItem := none, dataType := none }] } :=
  ⟨(claim_C6.2.1 DEFAULT_SETTINGS emptyDom rfl).1,
   claim_C6.2.2 _ _ (by decide)⟩

/-- C9: Retract removes the injected rule definitions and the data-item
tags of every live element (and, on a cleanly tagged DOM, every divider
class and data-type marker as well); it is idempotent, and it is a
strict no-op both on a DOM where nothing was ever applied and right
after another Retract. -/
theorem claim_C9 :
    (∀ s : DomState, removeDividers (removeDividers s) = removeDividers s) ∧
    (∀ s : DomState, (removeDividers s).styleEl = none ∧
      ∀ it ∈ (removeDividers s).items, it.dataItem = none) ∧
    (∀ s : DomState, cleanTagged s →
      ∀ it ∈ (removeDividers s).items, untaggedClean it) ∧
    (∀ s : DomState, s.styleEl = none → (∀ it ∈ s.items, it.dataItem = none) →
      removeDividers s = s) := by
  refine ⟨removeDividers_idem, ?_, ?_, ?_⟩
  · intro s
    refine ⟨rfl, ?_⟩
    intro it hit
    rw [show (removeDividers s).items = clearTagged s.items from rfl,
      clearTagged, List.mem_map] at hit
    obtain ⟨it0, _, rfl⟩ := hit
    unfold stripIfTagged
    by_cases hd : it0.dataItem.isSome = true
    · rw [if_pos hd]
      rfl
    · rw [if_neg hd]
      cases h0 : it0.dataItem
      · rfl
      · rw [h0] at hd; simp at hd
  · intro s h
    exact clearTagged_untagged h
  · intro s hstyle hitems
    have hmap : clearTagged s.items = s.items := by
      unfold clearTagged
      refine map_eq_self_of_mem (fun it hit => ?_)
      unfold stripIfTagged
      rw [if_neg (by rw [hitems it hit]; simp)]
    cases s
    simp only at hstyle hitems ⊢
    subst hstyle
    unfold removeDividers
    simp only at hmap
    rw [hmap]

/-- Witness for C9: retraction fully untags a tagged one-file DOM, and
is a no-op on the untouched empty DOM. -/
theorem claim_C9_witness :
    removeDividers emptyDom = emptyDom ∧
    ((⟨"todo", .file, [], none, none⟩ : DomItem)).dataItem = none :=
  ⟨claim_C9.2.2.2 emptyDom rfl (fun it hit => absurd hit (List.not_mem_nil it)),
   (claim_C9.2.2.1
      { styleEl := some [],
        items := [{ name := "todo", kind := .file,
                    classes := ["nav-file-divider-above"],
                    dataItem := some "todo", dataType := some .file }] }
      (by decide)
      ⟨"todo", .file, [], none, none⟩ (by decide)).1⟩

/-- C7: Toggle flips the enabled flag, persists, notifies the new
state, renders by Apply when the new state is enabled and by Retract
when disabled; toggling away from enabled retracts the full presentation
state, and toggling back restores exactly the state a single Apply over
the unchanged store and tree produces. -/
theorem claim_C7 :
    ∀ (st : FilesDividersSettings) (dom : DomState),
      (toggleDividers st dom).settings.enabled = !st.enabled ∧
      (toggleDividers st dom).settings.dividers = st.dividers ∧
      (toggleDividers st dom).saved = true ∧
      (toggleDividers st dom).notices =
        ["Files dividers " ++ (if st.enabled then "disabled" else "enabled")] ∧
      (st.enabled = true → (toggleDividers st dom).dom = removeDividers dom) ∧
      (st.enabled = false →
        (toggleDividers st dom).dom =
          applyDividers (toggleDividers st dom).settings dom) ∧
      (st.enabled = true →
        (toggleDividers (toggleDividers st dom).settings
          (toggleDividers st dom).dom).dom = applyDividers st dom) := by
  intro st dom
  refine ⟨rfl, rfl, rfl, ?_, ?_, ?_, ?_⟩
  · cases h : st.enabled <;> simp [toggleDividers, h]
  · intro h
    simp [toggleDividers, saveSettingsDom, h]
  · intro h
    simp [toggleDividers, saveSettingsDom, h]
  · intro h
    obtain ⟨ds, c, th, en⟩ := st
    have h' : en = true := h
    subst h'
    show applyDividers
        { dividers := ds, dividerColor := c, dividerThickness := th, enabled := true }
        (removeDividers dom) =
      applyDividers
        { dividers := ds, dividerColor := c, dividerThickness := th, enabled := true }
        dom
    exact applyDividers_removeDividers _ dom

/-- Witness for C7: toggling off from the default (enabled) settings
retracts; toggling off then on restores the apply state; toggling on
from disabled settings applies. -/
theorem claim_C7_witness :
    (toggleDividers DEFAULT_SETTINGS emptyDom).dom = removeDividers emptyDom ∧
    (toggleDividers
      { dividers := [], dividerColor := "#484848", dividerThickness := 1,
        enabled := false } emptyDom).dom =
      applyDividers
        (toggleDividers
          { dividers := [], dividerColor := "#484848", dividerThickness := 1,
            enabled := false } emptyDom).settings emptyDom ∧
    (toggleDividers (toggleDividers DEFAULT_SETTINGS emptyDom).settings
      (toggleDividers DEFAULT_SETTINGS emptyDom).dom).dom =
      applyDividers DEFAULT_SETTINGS emptyDom :=
  ⟨(claim_C7 DEFAULT_SETTINGS emptyDom).2.2.2.2.1 rfl,
   (claim_C7 _ emptyDom).2.2.2.2.2.1 rfl,
   (claim_C7 DEFAULT_SETTINGS emptyDom).2.2.2.2.2.2 rfl⟩

end FilesDividers
